import Mathlib

/-!
Verification development for the hots.dog server (`main.go`).

The definitions below are a shallow embedding of the cache/aggregation core:

* database access (`h.x.Select`, `h.db.Exec`) is abstracted as an explicit
  `run` function passed to each embedded operation; it receives the generated
  query text and the positional parameter list and returns either rows or an
  error string;
* Go machine integers are modeled as `Nat`/`Int` (row counts come from SQL
  `COUNT(*)`, hence are nonnegative and modeled as `Nat`; quantile thresholds
  are modeled as `Int`);
* Go's `float64` winrate (`float64(t.Won) / float64(t.Total)`) is modeled as
  the exact rational `mkRat t.Won t.Total`; every concrete value a claim
  touches (`0`, `1`) is exactly representable, so no claim depends on
  floating-point rounding;
* Go map iteration order and SQL result-set order are unspecified; the
  embedding exposes them as the order of the corresponding association lists
  and row lists, and theorems about determinism quantify over permutations of
  those lists;
* fallible Go code (`error` returns) becomes `Except String`.
-/

namespace Hots

/-! ### String helpers

`String.splitOn` / `String.toInt?` from core do not reduce inside the kernel,
so the embedding uses its own character-list versions of the handful of Go
string operations the code needs (`strings.Split` with a one-character
separator, `strings.Contains`, `strconv.Atoi`, byte slicing `s[1:len(s)-1]`).
-/

/-- `strings.Split s sep` for a single-character separator `sep`.
Like Go, splitting the empty string yields `[""]`. -/
def splitChar (c : Char) : List Char → List (List Char)
  | [] => [[]]
  | a :: rest =>
    let r := splitChar c rest
    if a = c then [] :: r
    else
      match r with
      | [] => [[a]]
      | g :: gs => (a :: g) :: gs

/-- `strings.Split s ","` (the only separator the aggregation code uses). -/
def splitCommas (s : String) : List String :=
  (splitChar ',' s.toList).map List.asString

/-- `strings.Contains s pat`. -/
def strContains (s pat : String) : Bool :=
  decide (pat.toList <:+: s.toList)

/-- Go string slicing `s[1 : len(s)-1]`, used to strip the `{`/`}` delimiters
of a Postgres array literal.  Go panics when `len(s) < 2`; the talents column
always has the shape `\x7b...\x7d`, and the embedding silently returns a short
remainder on degenerate inputs. -/
def stripBraces (s : String) : String :=
  ((s.toList.drop 1).dropLast).asString

/-- Digit-string accumulator used by `goAtoi`. -/
def parseDigitsAux : List Char → Nat → Option Nat
  | [], acc => some acc
  | c :: rest, acc =>
    if c.isDigit then parseDigitsAux rest (acc * 10 + (c.toNat - '0'.toNat))
    else none

/-- `strconv.Atoi`: optional sign followed by at least one digit.
Go's `int` range error cannot trigger for the small indices involved, so the
result is an unbounded `Int`. -/
def goAtoi (s : String) : Except String Int :=
  let err : Except String Int :=
    .error ("strconv.Atoi: parsing \"" ++ s ++ "\": invalid syntax")
  match s.toList with
  | [] => err
  | '-' :: rest =>
    match rest, parseDigitsAux rest 0 with
    | _ :: _, some n => .ok (-(n : Int))
    | _, _ => err
  | '+' :: rest =>
    match rest, parseDigitsAux rest 0 with
    | _ :: _, some n => .ok (n : Int)
    | _, _ => err
  | l =>
    match parseDigitsAux l 0 with
    | some n => .ok (n : Int)
    | none => err

/-! ### Association-list primitives

Go maps become association lists.  The list order stands for the (otherwise
unobservable) iteration order of the Go map; wherever the source iterates a
map, the embedding's theorems quantify over permutations of the list. -/

/-- Lookup in a string-keyed association list (first match, as in a Go map
whose keys are unique). -/
def assocLookup (l : List (String × α)) (k : String) : Option α :=
  match l with
  | [] => none
  | (k', v) :: rest => if k' = k then some v else assocLookup rest k

/-- `m[k]` followed by re-assignment `m[k] = f old` on a Go map: update in
place when the key is present, append a fresh entry (seeded with the map's
zero value `d`) otherwise. -/
def updAssoc (l : List (String × α)) (k : String) (d : α) (f : α → α) :
    List (String × α) :=
  match l with
  | [] => [(k, f d)]
  | (k', v) :: rest =>
    if k' = k then (k', f v) :: rest else (k', v) :: updAssoc rest k d f

/-- Lookup in a `Nat`-keyed association list. -/
def assocLookupNat (l : List (Nat × α)) (k : Nat) : Option α :=
  match l with
  | [] => none
  | (k', v) :: rest => if k' = k then some v else assocLookupNat rest k

/-- Update-in-place in a `Nat`-keyed association list.  Unlike `updAssoc`
this does not insert missing keys: the only use is `tally[tier][talent] = t`
where `tally` is pre-seeded with tiers 1–7 and Go would panic on a write to
a missing (nil) inner map, so an absent tier is left untouched. -/
def updAssocNat (l : List (Nat × α)) (k : Nat) (f : α → α) : List (Nat × α) :=
  match l with
  | [] => []
  | (k', v) :: rest =>
    if k' = k then (k', f v) :: rest else (k', v) :: updAssocNat rest k f

/-- Lookup in an `Int`-keyed association list (`map[Mode]Stats`). -/
def assocLookupInt (l : List (Int × α)) (k : Int) : Option α :=
  match l with
  | [] => none
  | (k', v) :: rest => if k' = k then some v else assocLookupInt rest k

/-! ### Data model -/

/-- `type Total struct { Wins, Losses int }` (main.go). -/
structure Total where
  Wins : Nat
  Losses : Nat
deriving DecidableEq

/-- The anonymous accumulator of `getBuildWinrates`:
`total := make(map[string]struct{ Total int; Won int })`. -/
structure TW where
  Total : Nat
  Won : Nat
deriving DecidableEq

/-- `type build struct { Build []string; Total int; Winrate float64 }`
(main.go); the winrate is modeled as an exact rational. -/
structure build where
  Build : List String
  Total : Nat
  Winrate : ℚ
deriving DecidableEq

/-- Modelled from the spec: the game-version record of `ConfigSnapshot`
(`builds: ordered list of \x7bid, start, end\x7d sorted newest-first`).  The
`Build` struct itself lives in a repository file that is not under `src/`;
only the identifier is ever read by the embedded operations, so the time
window is omitted. -/
structure GameBuild where
  ID : String
deriving DecidableEq

/-- Modelled from the spec: the per-(build, mode) skill-quantile table
(`quantile table (ordered list of skill thresholds, indexable 0..N)`); the
`Stats` type is declared in a repository file that is not under `src/`. -/
structure Stats where
  Quantile : List Int
deriving DecidableEq

/-- A positional SQL parameter: the source appends either strings
(dimension codes, the hero-level floor) or numeric skill thresholds. -/
inductive Param where
  | s : String → Param
  | n : Int → Param
deriving DecidableEq

/-- The in-memory configuration snapshot (`initData` in main.go).
`configMap` models `config.Map : map[string]map[string]string`
(dimension name → display-name → code); the inner and outer maps are
association lists.  The `groupConfig` type is declared in a repository file
that is not under `src/`; its `Map` field is modelled from the spec
(`dimensionMaps: map[dimensionName -> (displayName <-> code) bijection]`). -/
structure initData where
  Builds : List GameBuild
  configMap : List (String × List (String × String))
  BuildStats : List (String × List (Int × Stats))

/-- The reverse lookup functions `init.lookups[group]` built in `updateInit`:
for each dimension the display→code map is inverted into code→display.
A Go map lookup of an absent code yields `""`; inverting a non-injective map
keeps an unspecified entry (the embedding keeps the first).  Calling a lookup
for a dimension absent from the config would be a nil-function panic in Go;
the embedding returns `""`. -/
def lookupName (m : List (String × String)) (code : String) : String :=
  match m with
  | [] => ""
  | (k, v) :: rest => if v = code then k else lookupName rest code

/-- `init.lookups[group](code)`. -/
def lookups (init : initData) (group : String) (code : String) : String :=
  match assocLookup init.configMap group with
  | some m => lookupName m code
  | none => ""

/-- Request arguments: `map[string]string` built from `r.FormValue`, which
yields `""` for an absent parameter. -/
def Args : Type := String → String

/-- Copy the argument map and overwrite one key (the `argsPrev` construction
in `GetBuildWinrates`/`GetWinrates`). -/
def setArg (args : Args) (k v : String) : Args :=
  fun key => if key = k then v else args key

/-! ### RetryExecutor (`retry` / `retryable`, main.go 622–651) -/

/-- A database error as `retryable` classifies it: `code` is the Postgres
error code when `errors.Cause(err)` is a `*pq.Error`, and `msg` is the
`err.Error()` text. -/
structure Perr where
  code : Option String
  msg : String
deriving DecidableEq

/-- `retryable(err)`: a serialization-conflict code `40001` or a message
containing `"connection reset by peer"`. -/
def retryable (e : Perr) : Bool :=
  decide (e.code = some "40001") || strContains e.msg "connection reset by peer"

/-- Outcome of `retry`: success, a non-retryable error returned as-is, or the
distinct `errors.New("retry limit exhausted")` value. -/
inductive RetryResult where
  | success : RetryResult
  | failed : Perr → RetryResult
  | exhausted : RetryResult
deriving DecidableEq

/-- The loop body of `retry`: `fuel` counts the remaining iterations of
`for count := 0; count < 10; count++`, `k` is the index of the next call to
`fn`.  The wrapped operation is modeled as a function from the attempt index
to that attempt's result (`none` = the attempt succeeded), which determinizes
the side effects of re-executing the closure. -/
def retryGo (fn : Nat → Option Perr) : Nat → Nat → RetryResult
  | 0, _ => .exhausted
  | fuel + 1, k =>
    match fn k with
    | none => .success
    | some e => if retryable e then retryGo fn fuel (k + 1) else .failed e

/-- `retry(fn)` (main.go 623–636). -/
def retry (fn : Nat → Option Perr) : RetryResult :=
  retryGo fn 10 0

/-! ### Previous-build lookup (`getBuildBefore`, main.go 1358–1368) -/

/-- Scan `init.Builds` (sorted newest-first) for `id`; report the next entry,
or `("", false)` when `id` is last or absent. -/
def getBuildBefore (init : initData) (id : String) : String × Bool :=
  go init.Builds
where
  go : List GameBuild → String × Bool
    | [] => ("", false)
    | b :: rest =>
      if b.ID = id then
        match rest with
        | [] => ("", false)
        | c :: _ => (c.ID, true)
      else go rest

/-! ### Query construction (`getBuildWinrates` 705–746, `getWinrates` 1166–1227)

The generated query is represented by the `wheres`/`groups`/`params`
accumulators the Go code builds plus the assembled SQL text. -/

/-- `const defaultHerolevel = "5"` (main.go 1164). -/
def defaultHerolevel : String := "5"

/-- The pieces of a generated `SELECT`: the `WHERE` conjuncts, the
`GROUP BY` columns, the positional parameters, and the assembled text. -/
structure QueryParts where
  wheres : List String
  groups : List String
  params : List Param
  query : String
deriving DecidableEq

/-- The filter loop of `getBuildWinrates` (main.go 716–730): for each
non-empty argument among `build`, `hero`, `map`, `mode`, translate through the
dimension map when one exists (failing on an unrecognized value), then append
an equality predicate, a group column, and the positional parameter. -/
def bwFilterLoop (init : initData) (args : Args) :
    List String → List String → List String → List Param →
    Except String (List String × List String × List Param)
  | [], wheres, groups, params => .ok (wheres, groups, params)
  | key :: rest, wheres, groups, params =>
    let v := args key
    if v = "" then bwFilterLoop init args rest wheres groups params
    else
      match assocLookup init.configMap key with
      | some m =>
        let v2 := (assocLookup m v).getD ""
        if v2 = "" then .error ("unrecognized " ++ key ++ ": " ++ args key)
        else
          bwFilterLoop init args rest
            (wheres ++ [key ++ " = $" ++ toString (params.length + 1)])
            (groups ++ [key]) (params ++ [Param.s v2])
      | none =>
        bwFilterLoop init args rest
          (wheres ++ [key ++ " = $" ++ toString (params.length + 1)])
          (groups ++ [key]) (params ++ [Param.s v])

/-- Argument validation and query construction of `getBuildWinrates`
(main.go 706–746). -/
def getBuildWinratesQuery (init : initData) (args : Args) :
    Except String QueryParts :=
  if args "build" = "" then .error "build required"
  else if args "hero" = "" then .error "hero required"
  else
    match bwFilterLoop init args ["build", "hero", "map", "mode"]
        [] ["talents", "winner"] [] with
    | .error e => .error e
    | .ok (wheres, groups, params) =>
      let hl := if args "herolevel" = "" then defaultHerolevel
                else args "herolevel"
      let wheres := wheres ++ ["hero_level >= $" ++ toString (params.length + 1)]
      let params := params ++ [Param.s hl]
      let wheres := wheres ++ ["array_length(talents, 1) > 0"]
      let query := "SELECT COUNT(*) count, winner, talents FROM players" ++
        (if wheres.length > 0 then
          " WHERE " ++ String.intercalate " AND " wheres
        else "") ++
        " GROUP BY " ++ String.intercalate ", " groups
      .ok ⟨wheres, groups, params, query⟩

/-- The filter loop of `getWinrates` (main.go 1174–1187): identical to
`bwFilterLoop` except that the key list is `build`, `map`, `mode` and no
group column is appended. -/
def wrFilterLoop (init : initData) (args : Args) :
    List String → List String → List Param →
    Except String (List String × List Param)
  | [], wheres, params => .ok (wheres, params)
  | key :: rest, wheres, params =>
    let v := args key
    if v = "" then wrFilterLoop init args rest wheres params
    else
      match assocLookup init.configMap key with
      | some m =>
        let v2 := (assocLookup m v).getD ""
        if v2 = "" then .error ("unrecognized " ++ key ++ ": " ++ args key)
        else
          wrFilterLoop init args rest
            (wheres ++ [key ++ " = $" ++ toString (params.length + 1)])
            (params ++ [Param.s v2])
      | none =>
        wrFilterLoop init args rest
          (wheres ++ [key ++ " = $" ++ toString (params.length + 1)])
          (params ++ [Param.s v])

/-- Go slice indexing `quantiles[i]`: out-of-range indices panic at runtime;
the embedding surfaces the panic as an error value. -/
def goIndex (l : List Int) (i : Int) : Except String Int :=
  if h : 0 ≤ i ∧ i.toNat < l.length then .ok (l.get ⟨i.toNat, h.2⟩)
  else .error "panic: runtime error: index out of range"

/-- The skill-quantile block of `getWinrates` (main.go 1194–1220), phrased as
the `WHERE`/param suffix it appends; `off` is `len(params)` at entry.  The
user-supplied quantile index is resolved against
`init.BuildStats[args["build"]][Mode(i)].Quantile` (a missing mode yields the
zero `Stats`, whose empty table then makes any index a panic). -/
def quantileParts (init : initData) (args : Args) (off : Nat) :
    Except String (List String × List Param) :=
  if args "mode" ≠ "" ∧ (args "skill_low" ≠ "" ∨ args "skill_high" ≠ "") then
    match goAtoi (args "mode") with
    | .error e => .error e
    | .ok i =>
      match assocLookup init.BuildStats (args "build") with
      | none => .error ("unknown build: " ++ args "build")
      | some modes =>
        let quantiles := ((assocLookupInt modes i).getD ⟨[]⟩).Quantile
        match
          (if args "skill_low" ≠ "" then
            match goAtoi (args "skill_low") with
            | .error e => .error e
            | .ok j =>
              match goIndex quantiles j with
              | .error e => .error e
              | .ok v =>
                .ok (["skill >= $" ++ toString (off + 1)], [Param.n v])
          else (.ok ([], []) : Except String (List String × List Param))) with
        | .error e => .error e
        | .ok (w1, p1) =>
          match
            (if args "skill_high" ≠ "" then
              match goAtoi (args "skill_high") with
              | .error e => .error e
              | .ok j =>
                match goIndex quantiles j with
                | .error e => .error e
                | .ok v =>
                  .ok (["skill <= $" ++ toString (off + p1.length + 1)],
                       [Param.n v])
            else (.ok ([], []) : Except String (List String × List Param))) with
          | .error e => .error e
          | .ok (w2, p2) => .ok (w1 ++ w2, p1 ++ p2)
  else .ok ([], [])

/-- Argument validation and query construction of `getWinrates`
(main.go 1167–1227). -/
def getWinratesQuery (init : initData) (args : Args) :
    Except String QueryParts :=
  if args "build" = "" then .error "build required"
  else
    match wrFilterLoop init args ["build", "map", "mode"] [] [] with
    | .error e => .error e
    | .ok (wheres, params) =>
      let hl := if args "herolevel" = "" then defaultHerolevel
                else args "herolevel"
      let wheres := wheres ++ ["hero_level >= $" ++ toString (params.length + 1)]
      let params := params ++ [Param.s hl]
      match quantileParts init args params.length with
      | .error e => .error e
      | .ok (qw, qp) =>
        let wheres := wheres ++ qw
        let params := params ++ qp
        let groups := ["hero", "winner"]
        let query :=
          "SELECT COUNT(*) count, hero counter, winner FROM players" ++
          (if wheres.length > 0 then
            " WHERE " ++ String.intercalate " AND " wheres
          else "") ++
          " GROUP BY " ++ String.intercalate ", " groups
        .ok ⟨wheres, groups, params, query⟩

/-! ### Result folding (`getBuildWinrates` 748–824, `countWins` 1094–1118) -/

/-- A row of the talent-winrate query: `COUNT(*)`, the raw talents column
(the Postgres array literal `\x7bt1,...\x7d`), and the win/loss flag. -/
structure WRow where
  Count : Nat
  Talents : String
  Winner : Bool
deriving DecidableEq

/-- A row of a `countWins` query: the grouped counter value, `COUNT(*)`, and
the win/loss flag. -/
structure CRow where
  Counter : String
  Count : Nat
  Winner : Bool
deriving DecidableEq

/-- One per-tier tally `map[string]Total`. -/
abbrev TierTally : Type := List (String × Total)

/-- The tiered tally `map[int]map[string]Total`. -/
abbrev Tally : Type := List (Nat × TierTally)

/-- `tally := make(map[int]map[string]Total)` seeded with tiers 1–7. -/
def tally0 : Tally :=
  [(1, []), (2, []), (3, []), (4, []), (5, []), (6, []), (7, [])]

/-- `tally[talent]` on one tier with Go's zero-value for missing keys. -/
def tierLookup : TierTally → String → Total
  | [], _ => ⟨0, 0⟩
  | (k, v) :: rest, n => if k = n then v else tierLookup rest n

/-- `tally[tier][talent]` with Go's zero-value semantics for missing keys. -/
def tallyLookup (t : Tally) (tier : Nat) (name : String) : Total :=
  tierLookup ((assocLookupNat t tier).getD []) name

/-- One `tally[tier][talent]` read-modify-write. -/
def bumpTier (t : Tally) (tier : Nat) (name : String) (win : Bool) (c : Nat) :
    Tally :=
  updAssocNat t tier fun tt =>
    updAssoc tt name ⟨0, 0⟩ fun tot =>
      if win then ⟨tot.Wins + c, tot.Losses⟩ else ⟨tot.Wins, tot.Losses + c⟩

/-- The inner loop `for tier, talent := range strings.Split(talents, ",")`
of one row: `i` is the running 0-based index, the tier is `i + 1`. -/
def tallyTiers (init : initData) (c : Nat) (win : Bool) :
    Nat → List String → Tally → Tally
  | _, [], t => t
  | i, talent :: rest, t =>
    tallyTiers init c win (i + 1) rest
      (bumpTier t (i + 1) (lookups init "talent" talent) win c)

/-- The tally half of the row loop (main.go 765–784).  The Go loop updates
`total` and `tally` in one pass; the embedding folds the two independent
accumulators separately, which is observably identical. -/
def tallyFold (init : initData) : List WRow → Tally → Tally
  | [], t => t
  | wr :: rest, t =>
    tallyFold init rest
      (tallyTiers init wr.Count wr.Winner 0
        (splitCommas (stripBraces wr.Talents)) t)

/-- The `total` half of the row loop (main.go 765–772): per raw talent-set
key, accumulate the total game count and the won count.  The association-list
order is the key insertion order; the Go map's iteration order is modeled by
quantifying over permutations of this list. -/
def totalFold : List WRow → List (String × TW) → List (String × TW)
  | [], acc => acc
  | wr :: rest, acc =>
    totalFold rest
      (updAssoc acc (stripBraces wr.Talents) ⟨0, 0⟩ fun t =>
        ⟨t.Total + wr.Count, if wr.Winner then t.Won + wr.Count else t.Won⟩)

/-- One entry of the `builds` list (main.go 785–800): talent codes are
translated to display names, and the winrate is published only above the
popularity floor `popularGameLimit` (on the *won* count, per the source). -/
def mkBuild (init : initData) (pgl : Nat) (n : String) (t : TW) : build :=
  { Build := (splitCommas n).map (lookups init "talent")
    Total := t.Total
    Winrate := if t.Won > pgl then mkRat t.Won t.Total else 0 }

/-- `for n, t := range total` (main.go 786–800): the list order stands for
the map iteration order. -/
def buildsOf (init : initData) (pgl : Nat) (total : List (String × TW)) :
    List build :=
  total.map fun p => mkBuild init pgl p.1 p.2

/-- The ranked top-5 lists (main.go 801–823).  `sort.Slice` with a strict
comparator is modeled by the stable `insertionSort` on the matching
non-strict relation: for the short lists involved (`n ≤ 5` entries shown,
and Go uses insertion sort below 12 elements) the two agree, and ties are
resolved by the input order, which carries the source's map-iteration
nondeterminism. -/
def rankedOf (pgl : Nat) (builds : List build) : List build × List build :=
  let n := min 5 builds.length
  let sortedT := List.insertionSort (fun a b => b.Total ≤ a.Total) builds
  let popular := (sortedT.take n).filter fun b => pgl < b.Total
  let sortedW := List.insertionSort (fun a b => b.Winrate ≤ a.Winrate) sortedT
  let winning := (sortedW.take n).filter fun b => 0 < b.Winrate
  (popular, winning)

/-- `getBuildWinrates` (main.go 705–825): build the query, execute it through
`run`, and fold the rows into the tiered tally and the two ranked lists. -/
def getBuildWinrates (init : initData) (pgl : Nat)
    (run : String → List Param → Except String (List WRow)) (args : Args) :
    Except String (Tally × List build × List build) :=
  match getBuildWinratesQuery init args with
  | .error e => .error e
  | .ok qp =>
    match run qp.query qp.params with
    | .error e => .error ("select: " ++ e)
    | .ok rows =>
      let total := totalFold rows []
      let tally := tallyFold init rows tally0
      let ranked := rankedOf pgl (buildsOf init pgl total)
      .ok (tally, ranked.1, ranked.2)

/-- The row fold of `countWins` (main.go 1094–1118). -/
def countWinsFold (nameFn : Option (String → String)) :
    List CRow → TierTally → TierTally
  | [], t => t
  | wr :: rest, t =>
    let n := match nameFn with
      | some f => f wr.Counter
      | none => wr.Counter
    countWinsFold nameFn rest
      (updAssoc t n ⟨0, 0⟩ fun tot =>
        if wr.Winner then ⟨tot.Wins + wr.Count, tot.Losses⟩
        else ⟨tot.Wins, tot.Losses + wr.Count⟩)

/-- `getWinrates` (main.go 1166–1230): build the query and fold the rows
through `countWins` with the hero code→name lookup. -/
def getWinrates (init : initData)
    (run : String → List Param → Except String (List CRow)) (args : Args) :
    Except String TierTally :=
  match getWinratesQuery init args with
  | .error e => .error e
  | .ok qp =>
    match run qp.query qp.params with
    | .error e => .error ("select wins: " ++ e)
    | .ok rows => .ok (countWinsFold (some (lookups init "hero")) rows [])

/-! ### Handlers (`GetBuildWinrates` 653–697, `GetWinrates` 1127–1162)

Each handler runs the current-build aggregation and, when `getBuildBefore`
finds a previous build, the same aggregation with only the build argument
substituted.  The two `errgroup` goroutines are joined by `g.Wait()`, which
returns the first error that occurred; when both fail the embedding
determinizes to the current-build error.  The handler's `wrap` caller treats
a non-`none` error as a failed request (HTTP 500), discarding the result. -/

/-- The response struct of `GetBuildWinrates`.  `Current`/`Previous` are
`none` when the respective aggregation failed or (for `Previous`) never ran,
matching the Go `nil` maps.  `Talents` collects the static description of
every talent id appearing in `Current` through `talentData`, a lookup table
generated into a repository file that is not under `src/` and therefore
passed in as a parameter. -/
structure BWResponse where
  Current : Option Tally
  Previous : Option Tally
  PopularBuilds : List build
  WinningBuilds : List build
  Talents : List (String × String)
deriving DecidableEq

/-- `for _, talents := range res.Current \x7b for id := range talents \x7b
m[id] = talentData[id] \x7d \x7d` (main.go 689–694). -/
def collectTalents (talentData : String → String) (t : Tally) :
    List (String × String) :=
  t.foldl (fun acc p =>
    p.2.foldl (fun acc q => updAssoc acc q.1 "" (fun _ => talentData q.1)) acc)
    []

/-- `GetBuildWinrates` (main.go 653–697): the pair is (response, error). -/
def GetBuildWinrates (init : initData) (pgl : Nat)
    (talentData : String → String)
    (run : String → List Param → Except String (List WRow)) (args : Args) :
    BWResponse × Option String :=
  let cur := getBuildWinrates init pgl run args
  let pb := getBuildBefore init (args "build")
  let prev :=
    if pb.2 then some (getBuildWinrates init pgl run (setArg args "build" pb.1))
    else none
  let errCur := match cur with
    | .error e => some ("getBuildWinrates: " ++ e)
    | .ok _ => none
  let errPrev := match prev with
    | some (.error e) => some ("fetch previous build: " ++ pb.1 ++ ": " ++ e)
    | _ => none
  let res : BWResponse :=
    { Current := match cur with
        | .ok r => some r.1
        | .error _ => none
      Previous := match prev with
        | some (.ok r) => some r.1
        | _ => none
      PopularBuilds := match cur with
        | .ok r => r.2.1
        | .error _ => []
      WinningBuilds := match cur with
        | .ok r => r.2.2
        | .error _ => []
      Talents := match cur with
        | .ok r => collectTalents talentData r.1
        | .error _ => [] }
  (res, errCur <|> errPrev)

/-- The response struct of `GetWinrates`. -/
structure WRResponse where
  Current : Option TierTally
  Previous : Option TierTally
deriving DecidableEq

/-- `GetWinrates` (main.go 1127–1162). -/
def GetWinrates (init : initData)
    (run : String → List Param → Except String (List CRow)) (args : Args) :
    WRResponse × Option String :=
  let cur := getWinrates init run args
  let pb := getBuildBefore init (args "build")
  let prev :=
    if pb.2 then some (getWinrates init run (setArg args "build" pb.1))
    else none
  let errCur := match cur with
    | .error e => some ("getWinrates current build: " ++ e)
    | .ok _ => none
  let errPrev := match prev with
    | some (.error e) => some ("getWinrates previous build: " ++ e)
    | _ => none
  let res : WRResponse :=
    { Current := match cur with
        | .ok r => some r
        | .error _ => none
      Previous := match prev with
        | some (.ok r) => some r
        | _ => none }
  (res, errCur <|> errPrev)

/-! ### Encoding (`resultToBytes`, main.go 353–367)

`resultToBytes` marshals the response to JSON and eagerly writes the same
byte slice through a gzip writer.  The JSON encoder below fixes Go's field
order for the types the claims touch (`encoding/json` cannot fail on them);
the winrate is printed as an exact `num/den` pair standing in for Go's float
formatting — all that matters for the theorems is that it is injective.
Braces are written with `\x7b`/`\x7d` escapes.  The gzip codec itself is
external library code; it enters as an abstract `compress` function, and the
library's round-trip contract is a hypothesis of the corresponding
theorem. -/

/-- JSON string literal (the values involved contain no escapes). -/
def jstr (s : String) : String := "\"" ++ s ++ "\""

/-- JSON array from already-encoded elements. -/
def jarr (l : List String) : String := "[" ++ String.intercalate "," l ++ "]"

/-- Injective rendering of the (rational-modeled) winrate. -/
def encodeQ (q : ℚ) : String := toString q.num ++ "/" ++ toString q.den

/-- One `build` entry in Go's field order. -/
def encodeBuild (b : build) : String :=
  "\x7b\"Build\":" ++ jarr (b.Build.map jstr) ++
  ",\"Total\":" ++ toString b.Total ++
  ",\"Winrate\":" ++ encodeQ b.Winrate ++ "\x7d"

/-- A ranked build list. -/
def encodeBuilds (l : List build) : String := jarr (l.map encodeBuild)

/-- `resultToBytes` (main.go 353–367): returns the JSON payload and its
compressed copy; the source writes exactly the marshaled bytes through the
gzip writer and closes it, so the compressed copy is `compress` of the
payload. -/
def resultToBytes (enc : α → String) (compress : String → String) (res : α) :
    String × String :=
  let data := enc res
  (data, compress data)

/-! ## Theorems -/

/-! ### RetryExecutor (claim C4) -/

lemma retryGo_congr (fn fn' : Nat → Option Perr) :
    ∀ fuel k, (∀ j, k ≤ j → j < k + fuel → fn j = fn' j) →
      retryGo fn fuel k = retryGo fn' fuel k := by
  intro fuel
  induction fuel with
  | zero => intro k _; rfl
  | succ fuel ih =>
    intro k h
    have h0 : fn k = fn' k := h k le_rfl (by omega)
    unfold retryGo
    rw [h0]
    cases fn' k with
    | none => rfl
    | some e =>
      by_cases hr : retryable e = true
      · simp only [hr, if_true]
        exact ih (k + 1) fun j hj1 hj2 => h j (by omega) (by omega)
      · simp only [Bool.not_eq_true] at hr
        simp [hr]

lemma retryGo_failed (fn : Nat → Option Perr) (e : Perr) :
    ∀ fuel k d, d < fuel → fn (k + d) = some e → retryable e = false →
      (∀ j, j < d → ∃ e', fn (k + j) = some e' ∧ retryable e' = true) →
      retryGo fn fuel k = .failed e := by
  intro fuel
  induction fuel with
  | zero => intro k d hd; omega
  | succ fuel ih =>
    intro k d hd he hr hprev
    cases d with
    | zero =>
      unfold retryGo
      simp only [Nat.add_zero] at he
      rw [he]
      simp [hr]
    | succ d =>
      obtain ⟨e', he', hr'⟩ := hprev 0 (by omega)
      unfold retryGo
      simp only [Nat.add_zero] at he'
      rw [he']
      simp only [hr', if_true]
      refine ih (k + 1) d (by omega) ?_ hr ?_
      · have : k + 1 + d = k + (d + 1) := by omega
        rw [this]; exact he
      · intro j hj
        obtain ⟨e'', he'', hr''⟩ := hprev (j + 1) (by omega)
        refine ⟨e'', ?_, hr''⟩
        have : k + 1 + j = k + (j + 1) := by omega
        rw [this]; exact he''

lemma retryGo_exhausted (fn : Nat → Option Perr) :
    ∀ fuel k, (∀ j, j < fuel → ∃ e, fn (k + j) = some e ∧ retryable e = true) →
      retryGo fn fuel k = .exhausted := by
  intro fuel
  induction fuel with
  | zero => intro k _; rfl
  | succ fuel ih =>
    intro k h
    obtain ⟨e, he, hr⟩ := h 0 (by omega)
    unfold retryGo
    simp only [Nat.add_zero] at he
    rw [he]
    simp only [hr, if_true]
    refine ih (k + 1) fun j hj => ?_
    obtain ⟨e', he', hr'⟩ := h (j + 1) (by omega)
    refine ⟨e', ?_, hr'⟩
    have : k + 1 + j = k + (j + 1) := by omega
    rw [this]; exact he'

/-- Claim C4: the retry executor calls the wrapped operation at most 10
times (its result does not depend on attempts beyond the tenth); it
re-invokes only while the error is retryable, returning any non-retryable
error as soon as it occurs; ten retryable failures yield the distinct
retry-exhaustion result, which differs from every pass-through error. -/
theorem c4_retry_executor :
    (∀ fn fn' : Nat → Option Perr,
      (∀ k, k < 10 → fn k = fn' k) → retry fn = retry fn')
    ∧ (∀ (fn : Nat → Option Perr) (k : Nat) (e : Perr),
        k < 10 → fn k = some e → retryable e = false →
        (∀ j, j < k → ∃ e', fn j = some e' ∧ retryable e' = true) →
        retry fn = .failed e)
    ∧ (∀ fn : Nat → Option Perr,
        (∀ k, k < 10 → ∃ e, fn k = some e ∧ retryable e = true) →
        retry fn = .exhausted)
    ∧ (∀ e : Perr, RetryResult.exhausted ≠ RetryResult.failed e) := by
  refine ⟨?_, ?_, ?_, ?_⟩
  · intro fn fn' h
    exact retryGo_congr fn fn' 10 0 fun j _ hj => h j (by omega)
  · intro fn k e hk he hr hprev
    exact retryGo_failed fn e 10 0 k hk (by simpa using he) hr
      (by simpa using hprev)
  · intro fn h
    exact retryGo_exhausted fn 10 0 (by simpa using h)
  · intro e h
    cases h

/-- Witness for C4 at concrete operations: an always-serialization-conflict
operation exhausts the bound, and a non-retryable first failure is returned
as-is. -/
theorem c4_witness :
    retry (fun _ => some ⟨some "40001", "restart transaction"⟩) = .exhausted
    ∧ retry (fun _ => some ⟨none, "permission denied"⟩) =
        .failed ⟨none, "permission denied"⟩ := by
  constructor
  · exact c4_retry_executor.2.2.1 _ fun k _ => ⟨_, rfl, by decide⟩
  · exact c4_retry_executor.2.1 _ 0 _ (by omega) rfl (by decide)
      (fun j hj => absurd hj (by omega))

/-! ### Previous-build lookup (claim C7) -/

lemma gbbGo_last :
    ∀ (l : List GameBuild) (b : GameBuild),
      List.Pairwise (fun a b => b.ID.toList < a.ID.toList) l →
      l.getLast? = some b → getBuildBefore.go b.ID l = ("", false) := by
  intro l
  induction l with
  | nil => intro b _ hlast; simp at hlast
  | cons x rest ih =>
    intro b hp hlast
    cases rest with
    | nil =>
      simp only [List.getLast?_singleton, Option.some.injEq] at hlast
      subst hlast
      simp [getBuildBefore.go]
    | cons y t =>
      have hlast' : (y :: t).getLast? = some b := by
        rwa [List.getLast?_cons_cons] at hlast
      have hbmem : b ∈ y :: t := by
        obtain ⟨hne, rfl⟩ := List.mem_getLast?_eq_getLast hlast'
        exact List.getLast_mem hne
      have hlt : b.ID.toList < x.ID.toList :=
        (List.pairwise_cons.mp hp).1 b hbmem
      have hne : ¬ x.ID = b.ID := by
        intro h
        rw [h] at hlt
        exact lt_irrefl _ hlt
      simpa [getBuildBefore.go, hne] using
        ih b (List.pairwise_cons.mp hp).2 hlast'

lemma gbbGo_get :
    ∀ (l : List GameBuild) (i : Nat) (h : i + 1 < l.length),
      List.Pairwise (fun a b => b.ID.toList < a.ID.toList) l →
      getBuildBefore.go (l.get ⟨i, by omega⟩).ID l =
        ((l.get ⟨i + 1, h⟩).ID, true) := by
  intro l
  induction l with
  | nil => intro i h; simp at h
  | cons x rest ih =>
    intro i h hp
    cases i with
    | zero =>
      cases rest with
      | nil => simp at h
      | cons y t => simp [getBuildBefore.go]
    | succ i =>
      have h' : i + 1 < rest.length := by
        simpa [List.length_cons] using h
      have hi : i < rest.length := by omega
      have hmem : rest[i] ∈ rest := List.getElem_mem hi
      have hlt : (rest[i]).ID.toList < x.ID.toList :=
        (List.pairwise_cons.mp hp).1 _ hmem
      have hne : ¬ x.ID = (rest[i]).ID := by
        intro hx
        rw [hx] at hlt
        exact lt_irrefl _ hlt
      simpa [getBuildBefore.go, List.get_eq_getElem, List.getElem_cons_succ,
        hne] using ih i h' (List.pairwise_cons.mp hp).2

/-- Claim C7: with the builds list sorted strictly descending by identifier,
the previous-build lookup returns "no previous exists" for the oldest (last)
build and, for any other listed build, exactly the next-older identifier —
the element immediately after it in the list. -/
theorem c7_previous_build_lookup (init : initData)
    (hsort : List.Pairwise (fun a b => b.ID.toList < a.ID.toList) init.Builds) :
    (∀ b, init.Builds.getLast? = some b →
      getBuildBefore init b.ID = ("", false))
    ∧ (∀ i (h : i + 1 < init.Builds.length),
        getBuildBefore init (init.Builds.get ⟨i, by omega⟩).ID =
          ((init.Builds.get ⟨i + 1, h⟩).ID, true)) := by
  constructor
  · intro b hlast
    exact gbbGo_last init.Builds b hsort hlast
  · intro i h
    exact gbbGo_get init.Builds i h hsort

/-- Witness for C7 on a three-build list: the oldest build `B1` has no
previous, and `B3`'s previous is `B2`. -/
theorem c7_witness :
    getBuildBefore ⟨[⟨"B3"⟩, ⟨"B2"⟩, ⟨"B1"⟩], [], []⟩ "B1" = ("", false)
    ∧ getBuildBefore ⟨[⟨"B3"⟩, ⟨"B2"⟩, ⟨"B1"⟩], [], []⟩ "B3" = ("B2", true) := by
  have h := c7_previous_build_lookup ⟨[⟨"B3"⟩, ⟨"B2"⟩, ⟨"B1"⟩], [], []⟩
    (by decide)
  exact ⟨h.1 ⟨"B1"⟩ rfl, h.2 0 (by decide)⟩

/-! ### Concrete aggregation scenario (claim C3) -/

/-- The configuration of the spec's concrete scenario: builds `B2`/`B1`,
hero `Valla`, talents `t1`, `t2` (each display name equal to its code). -/
def scenarioInit : initData :=
  ⟨[], [("build", [("B2", "B2")]), ("hero", [("Valla", "Valla")]),
       ("talent", [("t1", "t1"), ("t2", "t2")])], []⟩

/-- The scenario's filter arguments. -/
def scenarioArgs : Args := fun k =>
  if k = "build" then "B2"
  else if k = "hero" then "Valla"
  else if k = "herolevel" then "5"
  else ""

/-- The scenario's two grouped rows (the talents column carries the raw
Postgres array literal). -/
def scenarioRows : List WRow :=
  [⟨3, "\x7bt1,t2\x7d", true⟩, ⟨7, "\x7bt1,t2\x7d", false⟩]

/-- A database stub returning the scenario's rows. -/
def scenarioRun : String → List Param → Except String (List WRow) :=
  fun _ _ => .ok scenarioRows

/-- The tally the scenario must produce. -/
def scenarioTally : Tally :=
  [(1, [("t1", ⟨3, 7⟩)]), (2, [("t2", ⟨3, 7⟩)]),
   (3, []), (4, []), (5, []), (6, []), (7, [])]

/-- Claim C3: on filter `build=B2, hero=Valla, herolevel=5` and grouped rows
`(t1,t2, win, 3)` and `(t1,t2, loss, 7)`, the fold yields tier-1 tally
`t1 ↦ (3 wins, 7 losses)`, tier-2 tally `t2 ↦ (3 wins, 7 losses)`, and
exactly one build entry `(["t1","t2"], 10 games, winrate 0)` (wins = 3 is at
the default popularity floor 10, so the winrate reports 0).  Neither ranked
list shows the entry: its totals sit at, not above, the floor. -/
theorem c3_concrete_scenario :
    getBuildWinrates scenarioInit 10 scenarioRun scenarioArgs =
      .ok (scenarioTally, [], [])
    ∧ buildsOf scenarioInit 10 (totalFold scenarioRows []) =
      [⟨["t1", "t2"], 10, 0⟩] := by
  constructor
  · rfl
  · rfl

/-! ### Ranked-list size bound (claim C10) -/

lemma rankedOf_length_le (pgl : Nat) (builds : List build) :
    (rankedOf pgl builds).1.length ≤ 5 ∧ (rankedOf pgl builds).2.length ≤ 5 := by
  simp only [rankedOf]
  constructor <;>
  · refine le_trans (List.length_filter_le _ _) ?_
    rw [List.length_take]
    exact le_trans (min_le_left _ _) (min_le_left _ _)

/-- Claim C10: every successful build-winrates aggregation returns ranked
popular-builds and winning-builds lists of at most 5 entries each. -/
theorem c10_top5_bound (init : initData) (pgl : Nat)
    (run : String → List Param → Except String (List WRow)) (args : Args)
    (t : Tally) (p w : List build)
    (h : getBuildWinrates init pgl run args = .ok (t, p, w)) :
    p.length ≤ 5 ∧ w.length ≤ 5 := by
  unfold getBuildWinrates at h
  split at h
  · simp at h
  · split at h
    · simp at h
    · simp only [Except.ok.injEq, Prod.mk.injEq] at h
      obtain ⟨-, hp, hw⟩ := h
      rw [← hp, ← hw]
      exact rankedOf_length_le _ _

/-- Witness for C10 at the concrete scenario (both lists empty, length 0). -/
theorem c10_witness :
    getBuildWinrates scenarioInit 10 scenarioRun scenarioArgs =
      .ok (scenarioTally, [], [])
    ∧ ([] : List build).length ≤ 5 ∧ ([] : List build).length ≤ 5 :=
  ⟨rfl, c10_top5_bound scenarioInit 10 scenarioRun scenarioArgs
    scenarioTally [] [] rfl⟩

/-! ### Gzip round-trip (claim C9) -/

/-- Claim C9: `resultToBytes` feeds exactly the JSON payload it returns
through the gzip writer, so — under the gzip library's round-trip contract —
decompressing the compressed copy yields a byte sequence identical to the
uncompressed payload. -/
theorem c9_gzip_roundtrip {α : Type} (enc : α → String)
    (compress decompress : String → String)
    (hinv : ∀ s, decompress (compress s) = s) (res : α) :
    decompress ((resultToBytes enc compress res).2) =
      (resultToBytes enc compress res).1 :=
  hinv _

/-- Witness for C9 with the identity codec (which satisfies the library
contract) on an encoded ranked list. -/
theorem c9_witness :
    (∀ s : String, (fun t : String => t) ((fun t : String => t) s) = s)
    ∧ (fun t : String => t)
        ((resultToBytes encodeBuilds (fun t : String => t)
          [⟨["t1", "t2"], 10, 0⟩]).2) =
      (resultToBytes encodeBuilds (fun t : String => t)
        [⟨["t1", "t2"], 10, 0⟩]).1 :=
  ⟨fun _ => rfl,
   c9_gzip_roundtrip encodeBuilds (fun t : String => t) (fun t : String => t)
     (fun _ => rfl) [⟨["t1", "t2"], 10, 0⟩]⟩

/-! ### Hero-level floor (claim C5) -/

/-- Counterexample to C5 as stated: a caller-supplied `herolevel` of `"1"`
is bound verbatim to the `hero_level >=` predicate, so the effective floor
is 1, strictly below the default 5 — the floor *can* be lowered below the
default. -/
theorem c5_counterexample :
    getWinratesQuery ⟨[], [("build", [("B2", "B2")])], []⟩
        (fun k => if k = "build" then "B2"
                  else if k = "herolevel" then "1" else "") =
      .ok ⟨["build = $1", "hero_level >= $2"], ["hero", "winner"],
           [Param.s "B2", Param.s "1"],
           "SELECT COUNT(*) count, hero counter, winner FROM players WHERE build = $1 AND hero_level >= $2 GROUP BY hero, winner"⟩
    ∧ goAtoi "1" = .ok 1 ∧ goAtoi defaultHerolevel = .ok 5 ∧ (1 : Int) < 5 :=
  ⟨rfl, rfl, rfl, by norm_num⟩

/-- Claim C5 amended: every successfully generated aggregation query contains
a `hero_level >= $k+1` floor predicate whose bound parameter is the default
threshold `"5"` when the caller supplies no `herolevel`, and otherwise the
caller-supplied value verbatim — which may lie below the default. -/
lemma getElem?_append_cons (l1 : List α) (x : α) (l2 : List α) :
    (l1 ++ x :: l2)[l1.length]? = some x := by
  induction l1 with
  | nil => simp
  | cons a t ih => simpa using ih

theorem c5_amended :
    (∀ (init : initData) (args : Args) (qp : QueryParts),
      getBuildWinratesQuery init args = .ok qp →
      ∃ k, ("hero_level >= $" ++ toString (k + 1)) ∈ qp.wheres ∧
        qp.params[k]? = some (Param.s
          (if args "herolevel" = "" then defaultHerolevel
           else args "herolevel")))
    ∧ (∀ (init : initData) (args : Args) (qp : QueryParts),
      getWinratesQuery init args = .ok qp →
      ∃ k, ("hero_level >= $" ++ toString (k + 1)) ∈ qp.wheres ∧
        qp.params[k]? = some (Param.s
          (if args "herolevel" = "" then defaultHerolevel
           else args "herolevel"))) := by
  constructor
  · intro init args qp h
    unfold getBuildWinratesQuery at h
    set hl := (if args "herolevel" = "" then defaultHerolevel
      else args "herolevel") with hhl
    split at h
    · simp at h
    · split at h
      · simp at h
      · split at h
        · simp at h
        · rename_i ws gs ps heq
          simp only [Except.ok.injEq] at h
          subst h
          refine ⟨ps.length, ?_, ?_⟩
          · simp
          · show ((ps ++ [Param.s hl])[ps.length]? = some (Param.s hl))
            exact getElem?_append_cons ps (Param.s hl) []
  · intro init args qp h
    unfold getWinratesQuery at h
    set hl := (if args "herolevel" = "" then defaultHerolevel
      else args "herolevel") with hhl
    split at h
    · simp at h
    · split at h
      · simp at h
      · rename_i ws ps heq
        dsimp only [] at h
        split at h
        · simp at h
        · rename_i qw qp2 heq2
          simp only [Except.ok.injEq] at h
          subst h
          refine ⟨ps.length, ?_, ?_⟩
          · simp
          · show (((ps ++ [Param.s hl]) ++ qp2)[ps.length]? =
              some (Param.s hl))
            rw [List.append_assoc, List.singleton_append]
            exact getElem?_append_cons ps (Param.s hl) qp2

/-- Witness for C5 (amended) at concrete requests: with `herolevel=5`
supplied the floor parameter is `"5"`, and with no `herolevel` the default
`"5"` is used. -/
theorem c5_witness :
    (∃ qp, getBuildWinratesQuery scenarioInit scenarioArgs = .ok qp ∧
      ∃ k, ("hero_level >= $" ++ toString (k + 1)) ∈ qp.wheres ∧
        qp.params[k]? = some (Param.s "5"))
    ∧ (∃ qp, getWinratesQuery ⟨[], [("build", [("B2", "B2")])], []⟩
        (fun k => if k = "build" then "B2" else "") = .ok qp ∧
      ∃ k, ("hero_level >= $" ++ toString (k + 1)) ∈ qp.wheres ∧
        qp.params[k]? = some (Param.s "5")) := by
  constructor
  · obtain ⟨k, h1, h2⟩ := c5_amended.1 scenarioInit scenarioArgs _ rfl
    exact ⟨_, rfl, k, h1, by simpa [scenarioArgs] using h2⟩
  · obtain ⟨k, h1, h2⟩ := c5_amended.2 ⟨[], [("build", [("B2", "B2")])], []⟩
      (fun k => if k = "build" then "B2" else "") _ rfl
    exact ⟨_, rfl, k, h1, by simpa [defaultHerolevel] using h2⟩

/-! ### Dimension translation (claim C8) -/

/-- A filter dimension that does not abort the loop: its argument is empty,
it has no name↔code map, or its value translates to a non-empty code. -/
def dimPasses (init : initData) (args : Args) (key : String) : Prop :=
  args key = "" ∨
    match assocLookup init.configMap key with
    | some m => (assocLookup m (args key)).getD "" ≠ ""
    | none => True

lemma wrFilterLoop_unrecognized (init : initData) (args : Args)
    (m : List (String × String)) (key : String) :
    ∀ (ks1 ks2 : List String) (w : List String) (p : List Param),
      (∀ k' ∈ ks1, dimPasses init args k') → args key ≠ "" →
      assocLookup init.configMap key = some m →
      (assocLookup m (args key)).getD "" = "" →
      wrFilterLoop init args (ks1 ++ key :: ks2) w p =
        .error ("unrecognized " ++ key ++ ": " ++ args key) := by
  intro ks1
  induction ks1 with
  | nil =>
    intro ks2 w p _ hne hm hv2
    simp only [List.nil_append]
    unfold wrFilterLoop
    rw [if_neg hne, hm]
    simp [hv2]
  | cons k' rest ih =>
    intro ks2 w p hall hne hm hv2
    have hk' := hall k' (List.mem_cons_self _ _)
    have hrest : ∀ x ∈ rest, dimPasses init args x := fun x hx =>
      hall x (List.mem_cons_of_mem _ hx)
    simp only [List.cons_append]
    unfold wrFilterLoop
    by_cases hv : args k' = ""
    · rw [if_pos hv]
      exact ih ks2 w p hrest hne hm hv2
    · rw [if_neg hv]
      rcases hk' with hk' | hk'
      · exact absurd hk' hv
      · cases hmk : assocLookup init.configMap k' with
        | none =>
          exact ih ks2 _ _ hrest hne hm hv2
        | some m' =>
          rw [hmk] at hk'
          have hk2 : (assocLookup m' (args k')).getD "" ≠ "" := hk'
          dsimp only []
          rw [if_neg hk2]
          exact ih ks2 _ _ hrest hne hm hv2

lemma bwFilterLoop_unrecognized (init : initData) (args : Args)
    (m : List (String × String)) (key : String) :
    ∀ (ks1 ks2 : List String) (w g : List String) (p : List Param),
      (∀ k' ∈ ks1, dimPasses init args k') → args key ≠ "" →
      assocLookup init.configMap key = some m →
      (assocLookup m (args key)).getD "" = "" →
      bwFilterLoop init args (ks1 ++ key :: ks2) w g p =
        .error ("unrecognized " ++ key ++ ": " ++ args key) := by
  intro ks1
  induction ks1 with
  | nil =>
    intro ks2 w g p _ hne hm hv2
    simp only [List.nil_append]
    unfold bwFilterLoop
    rw [if_neg hne, hm]
    simp [hv2]
  | cons k' rest ih =>
    intro ks2 w g p hall hne hm hv2
    have hk' := hall k' (List.mem_cons_self _ _)
    have hrest : ∀ x ∈ rest, dimPasses init args x := fun x hx =>
      hall x (List.mem_cons_of_mem _ hx)
    simp only [List.cons_append]
    unfold bwFilterLoop
    by_cases hv : args k' = ""
    · rw [if_pos hv]
      exact ih ks2 w g p hrest hne hm hv2
    · rw [if_neg hv]
      rcases hk' with hk' | hk'
      · exact absurd hk' hv
      · cases hmk : assocLookup init.configMap k' with
        | none =>
          exact ih ks2 _ _ _ hrest hne hm hv2
        | some m' =>
          rw [hmk] at hk'
          have hk2 : (assocLookup m' (args k')).getD "" ≠ "" := hk'
          dsimp only []
          rw [if_neg hk2]
          exact ih ks2 _ _ _ hrest hne hm hv2

lemma assocLookup_of_mem (m : List (String × String)) (d c : String)
    (hkeys : (m.map Prod.fst).Nodup) (hmem : (d, c) ∈ m) :
    assocLookup m d = some c := by
  induction m with
  | nil => simp at hmem
  | cons hd rest ih =>
    obtain ⟨k, v⟩ := hd
    simp only [List.map_cons, List.nodup_cons] at hkeys
    rcases List.mem_cons.mp hmem with heq | hmem'
    · obtain ⟨rfl, rfl⟩ := Prod.mk.injEq .. ▸ heq
      simp [assocLookup]
    · have hkd : ¬ k = d := by
        intro h
        subst h
        exact hkeys.1 (List.mem_map.mpr ⟨(k, c), hmem', rfl⟩)
      simp only [assocLookup, if_neg hkd]
      exact ih hkeys.2 hmem'

lemma lookupName_of_mem (m : List (String × String)) (d c : String)
    (hvals : (m.map Prod.snd).Nodup) (hmem : (d, c) ∈ m) :
    lookupName m c = d := by
  induction m with
  | nil => simp at hmem
  | cons hd rest ih =>
    obtain ⟨k, v⟩ := hd
    simp only [List.map_cons, List.nodup_cons] at hvals
    rcases List.mem_cons.mp hmem with heq | hmem'
    · obtain ⟨rfl, rfl⟩ := Prod.mk.injEq .. ▸ heq
      simp [lookupName]
    · have hvc : ¬ v = c := by
        intro h
        subst h
        exact hvals.1 (List.mem_map.mpr ⟨(d, v), hmem', rfl⟩)
      simp only [lookupName, if_neg hvc]
      exact ih hvals.2 hmem'

/-- Claim C8: a non-empty filter value absent from a dimension's name→code
map makes the aggregation (`getWinrates` and `getBuildWinrates` alike) fail
with an error naming the offending dimension and value rather than proceed
with a default; and for a dimension map with unique names and unique codes
(the spec's bijection invariant), translating a present display name to its
code and back through the inverted lookup is the identity. -/
theorem c8_dimension_translation :
    (∀ (init : initData)
      (run : String → List Param → Except String (List CRow)) (args : Args)
      (key : String) (ks1 ks2 : List String) (m : List (String × String)),
      ["build", "map", "mode"] = ks1 ++ key :: ks2 →
      args "build" ≠ "" →
      (∀ k' ∈ ks1, dimPasses init args k') →
      args key ≠ "" →
      assocLookup init.configMap key = some m →
      assocLookup m (args key) = none →
      getWinrates init run args =
        .error ("unrecognized " ++ key ++ ": " ++ args key))
    ∧ (∀ (init : initData) (pgl : Nat)
      (run : String → List Param → Except String (List WRow)) (args : Args)
      (key : String) (ks1 ks2 : List String) (m : List (String × String)),
      ["build", "hero", "map", "mode"] = ks1 ++ key :: ks2 →
      args "build" ≠ "" → args "hero" ≠ "" →
      (∀ k' ∈ ks1, dimPasses init args k') →
      args key ≠ "" →
      assocLookup init.configMap key = some m →
      assocLookup m (args key) = none →
      getBuildWinrates init pgl run args =
        .error ("unrecognized " ++ key ++ ": " ++ args key))
    ∧ (∀ (m : List (String × String)) (d c : String),
      (m.map Prod.fst).Nodup → (m.map Prod.snd).Nodup → (d, c) ∈ m →
      assocLookup m d = some c ∧ lookupName m c = d) := by
  refine ⟨?_, ?_, ?_⟩
  · intro init run args key ks1 ks2 m hks hb hall hne hm habs
    have hloop := wrFilterLoop_unrecognized init args m key ks1 ks2 [] []
      hall hne hm (by rw [habs]; rfl)
    unfold getWinrates getWinratesQuery
    rw [if_neg hb, hks, hloop]
  · intro init pgl run args key ks1 ks2 m hks hb hh hall hne hm habs
    have hloop := bwFilterLoop_unrecognized init args m key ks1 ks2 []
      ["talents", "winner"] [] hall hne hm (by rw [habs]; rfl)
    unfold getBuildWinrates getBuildWinratesQuery
    rw [if_neg hb, if_neg hh, hks, hloop]
  · intro m d c hkeys hvals hmem
    exact ⟨assocLookup_of_mem m d c hkeys hmem,
      lookupName_of_mem m d c hvals hmem⟩

/-- Witness for C8: an unrecognized map name `Atlantis` aborts `getWinrates`
with a descriptive error, and the `Volskaya ↔ vk` entry round-trips. -/
theorem c8_witness :
    getWinrates ⟨[], [("map", [("Volskaya", "vk")])], []⟩
        (fun _ _ => .ok [])
        (fun k => if k = "build" then "B"
                  else if k = "map" then "Atlantis" else "") =
      .error "unrecognized map: Atlantis"
    ∧ assocLookup [("Volskaya", "vk")] "Volskaya" = some "vk"
    ∧ lookupName [("Volskaya", "vk")] "vk" = "Volskaya" := by
  refine ⟨?_, ?_, ?_⟩
  · have h := c8_dimension_translation.1
      ⟨[], [("map", [("Volskaya", "vk")])], []⟩ (fun _ _ => .ok [])
      (fun k => if k = "build" then "B"
                else if k = "map" then "Atlantis" else "")
      "map" ["build"] ["mode"] [("Volskaya", "vk")] rfl (by decide)
      (by
        intro k' hk'
        simp only [List.mem_singleton] at hk'
        subst hk'
        right
        show (match assocLookup [("map", [("Volskaya", "vk")])] "build" with
          | some m => (assocLookup m "B").getD "" ≠ ""
          | none => True)
        simp [assocLookup])
      (by decide) rfl rfl
    exact h
  · exact (c8_dimension_translation.2.2 [("Volskaya", "vk")] "Volskaya" "vk"
      (by decide) (by decide) (by decide)).1
  · exact (c8_dimension_translation.2.2 [("Volskaya", "vk")] "Volskaya" "vk"
      (by decide) (by decide) (by decide)).2

/-! ### Current/previous-build join (claim C1) -/

/-- Configuration with two builds (`B2` newest, `B1` its predecessor) for the
claim-C1 instance. -/
def c1Init : initData :=
  ⟨[⟨"B2"⟩, ⟨"B1"⟩],
   [("build", [("B2", "B2"), ("B1", "B1")]), ("hero", [("Valla", "Valla")]),
    ("talent", [("t1", "t1"), ("t2", "t2")])], []⟩

/-- A request for the newest build. -/
def c1Args : Args := fun k =>
  if k = "build" then "B2" else if k = "hero" then "Valla" else ""

/-- A database that answers the current-build query and fails the
previous-build query (its parameter list carries the `B1` code). -/
def c1Run : String → List Param → Except String (List WRow) :=
  fun _ params =>
    if params.any (fun x => x == Param.s "B1") then .error "boom"
    else .ok [⟨3, "\x7bt1,t2\x7d", true⟩]

/-- Counterexample to C1 as stated: the current-build aggregation succeeds
and only the previous-build aggregation fails, yet `GetBuildWinrates`
returns a non-`nil` error (the wrapped previous-build error), so the overall
call fails instead of succeeding with the previous result left empty. -/
theorem c1_counterexample :
    (getBuildWinrates c1Init 10 c1Run c1Args).toOption.isSome = true
    ∧ getBuildWinrates c1Init 10 c1Run (setArg c1Args "build" "B1") =
        .error "select: boom"
    ∧ (GetBuildWinrates c1Init 10 (fun _ => "") c1Run c1Args).2 =
        some "fetch previous build: B1: select: boom" :=
  ⟨rfl, rfl, rfl⟩

/-- Claim C1 amended: the current and previous aggregations both run, but
their results are joined by `errgroup.Wait`, so an error in the
previous-build aggregation makes the overall call fail (non-`nil` error);
only the *absence* of a previous build is handled softly — then the call's
error is the current aggregation's alone and `Previous` stays empty.  The
same holds for `GetWinrates`. -/
theorem c1_amended :
    (∀ (init : initData) (pgl : Nat) (td : String → String)
      (run : String → List Param → Except String (List WRow)) (args : Args)
      (pb : String) (e : String),
      getBuildBefore init (args "build") = (pb, true) →
      getBuildWinrates init pgl run (setArg args "build" pb) = .error e →
      (GetBuildWinrates init pgl td run args).2 ≠ none)
    ∧ (∀ (init : initData) (pgl : Nat) (td : String → String)
      (run : String → List Param → Except String (List WRow)) (args : Args)
      (pb : String),
      getBuildBefore init (args "build") = (pb, false) →
      (GetBuildWinrates init pgl td run args).2 =
        (match getBuildWinrates init pgl run args with
         | .error e => some ("getBuildWinrates: " ++ e)
         | .ok _ => none)
      ∧ (GetBuildWinrates init pgl td run args).1.Previous = none)
    ∧ (∀ (init : initData)
      (run : String → List Param → Except String (List CRow)) (args : Args)
      (pb : String) (e : String),
      getBuildBefore init (args "build") = (pb, true) →
      getWinrates init run (setArg args "build" pb) = .error e →
      (GetWinrates init run args).2 ≠ none)
    ∧ (∀ (init : initData)
      (run : String → List Param → Except String (List CRow)) (args : Args)
      (pb : String),
      getBuildBefore init (args "build") = (pb, false) →
      (GetWinrates init run args).2 =
        (match getWinrates init run args with
         | .error e => some ("getWinrates current build: " ++ e)
         | .ok _ => none)
      ∧ (GetWinrates init run args).1.Previous = none) := by
  refine ⟨?_, ?_, ?_, ?_⟩
  · intro init pgl td run args pb e hpb herr
    unfold GetBuildWinrates
    rw [hpb]
    dsimp only []
    rw [herr]
    cases getBuildWinrates init pgl run args <;> simp
  · intro init pgl td run args pb hpb
    unfold GetBuildWinrates
    rw [hpb]
    dsimp only []
    cases getBuildWinrates init pgl run args <;> simp
  · intro init run args pb e hpb herr
    unfold GetWinrates
    rw [hpb]
    dsimp only []
    rw [herr]
    cases getWinrates init run args <;> simp
  · intro init run args pb hpb
    unfold GetWinrates
    rw [hpb]
    dsimp only []
    cases getWinrates init run args <;> simp

/-- Witness for C1 (amended) at the two-build instance: the previous build
`B1` exists, its aggregation fails, and the join reports an error. -/
theorem c1_witness :
    getBuildBefore c1Init (c1Args "build") = ("B1", true)
    ∧ getBuildWinrates c1Init 10 c1Run (setArg c1Args "build" "B1") =
        .error "select: boom"
    ∧ (GetBuildWinrates c1Init 10 (fun _ => "") c1Run c1Args).2 ≠ none :=
  ⟨rfl, rfl,
   c1_amended.1 c1Init 10 (fun _ => "") c1Run c1Args "B1" "select: boom"
     rfl rfl⟩

/-! ### Popularity floor (claim C2) -/

lemma updAssoc_forall {α : Type} {P : α → Prop} (k : String) (d : α)
    (f : α → α) (hd : P (f d)) (hf : ∀ v, P v → P (f v)) :
    ∀ (l : List (String × α)), (∀ p ∈ l, P p.2) →
      ∀ p ∈ updAssoc l k d f, P p.2 := by
  intro l
  induction l with
  | nil =>
    intro _ p hp
    simp only [updAssoc, List.mem_singleton] at hp
    subst hp
    exact hd
  | cons hd' rest ih =>
    intro hl p hp
    obtain ⟨k', v⟩ := hd'
    by_cases hk : k' = k
    · simp only [updAssoc, if_pos hk] at hp
      rcases List.mem_cons.mp hp with rfl | hp'
      · exact hf v (hl (k', v) (List.mem_cons_self _ _))
      · exact hl p (List.mem_cons_of_mem _ hp')
    · simp only [updAssoc, if_neg hk] at hp
      rcases List.mem_cons.mp hp with rfl | hp'
      · exact hl (k', v) (List.mem_cons_self _ _)
      · exact ih (fun q hq => hl q (List.mem_cons_of_mem _ hq)) p hp'

lemma totalFold_won_le :
    ∀ (rows : List WRow) (acc : List (String × TW)),
      (∀ p ∈ acc, p.2.Won ≤ p.2.Total) →
      ∀ p ∈ totalFold rows acc, p.2.Won ≤ p.2.Total := by
  intro rows
  induction rows with
  | nil => intro acc hacc; exact hacc
  | cons wr rest ih =>
    intro acc hacc
    refine ih _ ?_
    refine @updAssoc_forall TW (fun tw => tw.Won ≤ tw.Total) _ _ _ ?_ ?_
      acc hacc
    · dsimp only []
      cases wr.Winner <;> simp
    · intro v hv
      dsimp only []
      cases wr.Winner <;> simp <;> omega

/-- Claim C2: a talent combination whose total game count is at or below the
popularity floor reports winrate 0 and never appears in the winning-builds
ranked list, whatever its win fraction (the source gates on the won count,
and wins never exceed totals). -/
theorem c2_popularity_floor (init : initData) (pgl : Nat) (rows : List WRow)
    (k : String) (tw : TW) (hmem : (k, tw) ∈ totalFold rows [])
    (hle : tw.Total ≤ pgl) :
    (mkBuild init pgl k tw).Winrate = 0
    ∧ mkBuild init pgl k tw ∉
        (rankedOf pgl (buildsOf init pgl (totalFold rows []))).2 := by
  have hwl : tw.Won ≤ tw.Total :=
    totalFold_won_le rows [] (by simp) (k, tw) hmem
  have hngt : ¬ tw.Won > pgl := by omega
  have hw0 : (mkBuild init pgl k tw).Winrate = 0 := by
    simp [mkBuild, hngt]
  refine ⟨hw0, ?_⟩
  intro hmem2
  simp only [rankedOf] at hmem2
  have := (List.mem_filter.mp hmem2).2
  rw [hw0] at this
  simp at this

/-- Witness for C2 at the concrete scenario: the `t1,t2` combination has 10
games (at the floor), winrate 0, and is absent from the winning list. -/
theorem c2_witness :
    (mkBuild scenarioInit 10 "t1,t2" ⟨10, 3⟩).Winrate = 0
    ∧ mkBuild scenarioInit 10 "t1,t2" ⟨10, 3⟩ ∉
        (rankedOf 10 (buildsOf scenarioInit 10 (totalFold scenarioRows []))).2 :=
  c2_popularity_floor scenarioInit 10 scenarioRows "t1,t2" ⟨10, 3⟩
    (by decide) (by decide)

/-! ### Determinism of the aggregation (claim C6)

Two executions over an unchanged data set may receive the grouped rows in
different orders (`GROUP BY` without `ORDER BY`), and Go iterates the `total`
map in unspecified order.  The next lemmas characterise which parts of the
output are invariant under a permutation of the rows. -/

/-- One `tally[tier][talent] += count` increment:
(tier, talent name, win flag, count). -/
abbrev Inc : Type := Nat × String × Bool × Nat

/-- The increments one row's talent list generates, with running index `i`
(mirroring `tallyTiers`). -/
def rowIncsAux (init : initData) (c : Nat) (win : Bool) :
    Nat → List String → List Inc
  | _, [] => []
  | i, talent :: rest =>
    (i + 1, lookups init "talent" talent, win, c) ::
      rowIncsAux init c win (i + 1) rest

/-- All increments of one row. -/
def rowIncs (init : initData) (r : WRow) : List Inc :=
  rowIncsAux init r.Count r.Winner 0 (splitCommas (stripBraces r.Talents))

/-- Replay a list of increments on a tally. -/
def applyIncs : List Inc → Tally → Tally
  | [], t => t
  | (tier, name, win, c) :: rest, t =>
    applyIncs rest (bumpTier t tier name win c)

lemma tallyTiers_eq_applyIncs (init : initData) (c : Nat) (win : Bool) :
    ∀ (l : List String) (i : Nat) (t : Tally),
      tallyTiers init c win i l t = applyIncs (rowIncsAux init c win i l) t := by
  intro l
  induction l with
  | nil => intro i t; rfl
  | cons talent rest ih =>
    intro i t
    simp only [tallyTiers, rowIncsAux, applyIncs]
    exact ih (i + 1) _

lemma applyIncs_append :
    ∀ (l1 l2 : List Inc) (t : Tally),
      applyIncs (l1 ++ l2) t = applyIncs l2 (applyIncs l1 t) := by
  intro l1
  induction l1 with
  | nil => intro l2 t; rfl
  | cons q rest ih =>
    intro l2 t
    obtain ⟨tier, name, win, c⟩ := q
    simp only [List.cons_append, applyIncs]
    exact ih l2 _

lemma tallyFold_eq_applyIncs (init : initData) :
    ∀ (rows : List WRow) (t : Tally),
      tallyFold init rows t = applyIncs (rows.flatMap (rowIncs init)) t := by
  intro rows
  induction rows with
  | nil => intro t; rfl
  | cons r rest ih =>
    intro t
    simp only [tallyFold, List.flatMap_cons, applyIncs_append]
    rw [ih, tallyTiers_eq_applyIncs]
    rfl

lemma assocLookupNat_updAssocNat {α : Type} (f : α → α) (k : Nat) :
    ∀ (t : List (Nat × α)) (k' : Nat),
      assocLookupNat (updAssocNat t k f) k' =
        if k' = k then (assocLookupNat t k').map f else assocLookupNat t k' := by
  intro t
  induction t with
  | nil => intro k'; simp only [updAssocNat, assocLookupNat]; split <;> rfl
  | cons hd rest ih =>
    intro k'
    obtain ⟨k0, v⟩ := hd
    by_cases h0 : k0 = k
    · subst h0
      by_cases h' : k0 = k'
      · subst h'
        simp [updAssocNat, assocLookupNat]
      · simp [updAssocNat, assocLookupNat, h', Ne.symm h']
    · by_cases h' : k0 = k'
      · subst h'
        simp [updAssocNat, assocLookupNat, h0]
      · simp [updAssocNat, assocLookupNat, h0, h', ih]

lemma tierLookup_updAssoc (f : Total → Total) (n : String) :
    ∀ (tt : TierTally) (n' : String),
      tierLookup (updAssoc tt n ⟨0, 0⟩ f) n' =
        if n' = n then f (tierLookup tt n) else tierLookup tt n' := by
  intro tt
  induction tt with
  | nil =>
    intro n'
    by_cases h : n = n'
    · subst h; simp [updAssoc, tierLookup]
    · have h2 : ¬ n' = n := fun hh => h hh.symm
      simp [updAssoc, tierLookup, h, h2]
  | cons hd rest ih =>
    intro n'
    obtain ⟨k0, v⟩ := hd
    by_cases h0 : k0 = n
    · subst h0
      by_cases h' : k0 = n'
      · subst h'
        simp [updAssoc, tierLookup]
      · simp [updAssoc, tierLookup, h', Ne.symm h']
    · by_cases h' : k0 = n'
      · subst h'
        simp [updAssoc, tierLookup, h0]
      · simp [updAssoc, tierLookup, h0, h', ih]

/-- The (wins, losses) contribution of a single increment. -/
def incTotal (win : Bool) (c : Nat) : Nat × Nat :=
  if win then (c, 0) else (0, c)

/-- A `Total` as a plain pair (to sum contributions in `ℕ × ℕ`). -/
def totPair (t : Total) : Nat × Nat := (t.Wins, t.Losses)

lemma totPair_inj {a b : Total} (h : totPair a = totPair b) : a = b := by
  cases a; cases b
  simpa [totPair, Prod.ext_iff] using h

/-- Sum of the increments hitting a given (tier, talent) cell. -/
def incsSum (l : List Inc) (k : Nat) (n : String) : Nat × Nat :=
  ((l.filter fun q => decide (q.1 = k ∧ q.2.1 = n)).map
    fun q => incTotal q.2.2.1 q.2.2.2).sum

lemma isSome_bumpTier (t : Tally) (tier : Nat) (name : String) (win : Bool)
    (c : Nat) (k : Nat) :
    (assocLookupNat (bumpTier t tier name win c) k).isSome =
      (assocLookupNat t k).isSome := by
  unfold bumpTier
  rw [assocLookupNat_updAssocNat]
  split <;> simp

lemma tallyLookup_bumpTier (t : Tally) (tier : Nat) (name : String)
    (win : Bool) (c : Nat) (k : Nat) (n : String) :
    totPair (tallyLookup (bumpTier t tier name win c) k n) =
      totPair (tallyLookup t k n) +
        (if k = tier ∧ n = name ∧ (assocLookupNat t tier).isSome
         then incTotal win c else 0) := by
  unfold tallyLookup bumpTier
  rw [assocLookupNat_updAssocNat]
  by_cases hk : k = tier
  · subst hk
    rw [if_pos rfl]
    cases hlk : assocLookupNat t k with
    | none => simp [tierLookup, totPair]
    | some tt =>
      simp only [Option.map_some', Option.getD_some, Option.isSome_some]
      rw [tierLookup_updAssoc]
      by_cases hn : n = name
      · subst hn
        rw [if_pos rfl]
        cases win <;> simp [totPair, incTotal, Prod.ext_iff]
      · rw [if_neg hn, if_neg (fun hcon => hn hcon.2.1)]
        simp
  · rw [if_neg hk, if_neg (fun hcon => hk hcon.1)]
    simp

lemma applyIncs_lookup :
    ∀ (incs : List Inc) (t : Tally) (k : Nat) (n : String),
      totPair (tallyLookup (applyIncs incs t) k n) =
        totPair (tallyLookup t k n) +
          (if (assocLookupNat t k).isSome then incsSum incs k n else 0) := by
  intro incs
  induction incs with
  | nil =>
    intro t k n
    simp only [applyIncs, incsSum, List.filter_nil, List.map_nil,
      List.sum_nil]
    split <;> simp
  | cons q rest ih =>
    intro t k n
    obtain ⟨tier, name, win, c⟩ := q
    simp only [applyIncs]
    rw [ih, isSome_bumpTier, tallyLookup_bumpTier, add_assoc]
    congr 1
    by_cases hmatch : tier = k ∧ name = n
    · obtain ⟨rfl, rfl⟩ := hmatch
      simp only [incsSum, List.filter_cons, decide_eq_true_eq, and_self,
        if_pos (And.intro rfl rfl), List.map_cons, List.sum_cons]
      by_cases hs : (assocLookupNat t tier).isSome
      · simp [hs]
      · simp [hs]
    · have hfilter : ¬ (tier = k ∧ name = n) := hmatch
      have hif : ¬ (k = tier ∧ n = name ∧ (assocLookupNat t tier).isSome) := by
        rintro ⟨rfl, rfl, -⟩
        exact hfilter ⟨rfl, rfl⟩
      simp only [incsSum, List.filter_cons, decide_eq_true_eq]
      rw [if_neg hfilter, if_neg hif, zero_add]

lemma incsSum_perm {l1 l2 : List Inc} (p : l1.Perm l2) (k : Nat) (n : String) :
    incsSum l1 k n = incsSum l2 k n :=
  List.Perm.sum_eq (((p.filter _).map _))

lemma assocLookup_updAssoc {α : Type} (d : α) (f : α → α) (k0 : String) :
    ∀ (l : List (String × α)) (k : String),
      assocLookup (updAssoc l k0 d f) k =
        if k = k0 then some (f ((assocLookup l k0).getD d))
        else assocLookup l k := by
  intro l
  induction l with
  | nil =>
    intro k
    by_cases h : k = k0
    · subst h; simp [updAssoc, assocLookup]
    · have h2 : ¬ k0 = k := fun hh => h hh.symm
      simp [updAssoc, assocLookup, h, h2]
  | cons hd rest ih =>
    intro k
    obtain ⟨k1, v⟩ := hd
    by_cases h1 : k1 = k0
    · subst h1
      by_cases h : k = k1
      · subst h; simp [updAssoc, assocLookup]
      · have h2 : ¬ k1 = k := fun hh => h hh.symm
        simp [updAssoc, assocLookup, h, h2]
    · by_cases h : k = k1
      · have h2 : ¬ k = k0 := fun hh => h1 (h.symm.trans hh)
        have h3 : k1 = k := h.symm
        simp [updAssoc, assocLookup, h1, h2, h3]
      · have h2 : ¬ k1 = k := fun hh => h hh.symm
        simp [updAssoc, assocLookup, h1, h2, ih]

/-- The per-key (games, wins) content of the `total` accumulator, as a sum
over the matching rows. -/
def cntTW (rows : List WRow) (k : String) : Nat × Nat :=
  ((rows.filter fun r => decide (stripBraces r.Talents = k)).map
    fun r => (r.Count, if r.Winner then r.Count else 0)).sum

lemma cntTW_perm {rows1 rows2 : List WRow} (p : rows1.Perm rows2)
    (k : String) : cntTW rows1 k = cntTW rows2 k :=
  List.Perm.sum_eq ((p.filter _).map _)

lemma totalFold_lookup :
    ∀ (rows : List WRow) (acc : List (String × TW)) (k : String),
      assocLookup (totalFold rows acc) k =
        match assocLookup acc k with
        | some t =>
          some ⟨t.Total + (cntTW rows k).1, t.Won + (cntTW rows k).2⟩
        | none =>
          if ∃ r ∈ rows, stripBraces r.Talents = k
          then some ⟨(cntTW rows k).1, (cntTW rows k).2⟩
          else none := by
  intro rows
  induction rows with
  | nil =>
    intro acc k
    simp only [totalFold, cntTW, List.filter_nil, List.map_nil, List.sum_nil]
    cases h : assocLookup acc k with
    | none => simp
    | some t => simp
  | cons r rest ih =>
    intro acc k
    simp only [totalFold]
    rw [ih, assocLookup_updAssoc]
    by_cases hk : k = stripBraces r.Talents
    · subst hk
      rw [if_pos rfl]
      have hcnt : cntTW (r :: rest) (stripBraces r.Talents) =
          (r.Count, if r.Winner then r.Count else 0) +
            cntTW rest (stripBraces r.Talents) := by
        simp [cntTW, List.filter_cons]
      rw [hcnt]
      cases hacc : assocLookup acc (stripBraces r.Talents) with
      | some t =>
        simp only [Option.getD_some]
        cases r.Winner <;>
          simp [TW.mk.injEq, Prod.fst_add, Prod.snd_add] <;> omega
      | none =>
        simp only [Option.getD_none]
        have hex : ∃ r' ∈ r :: rest,
            stripBraces r'.Talents = stripBraces r.Talents :=
          ⟨r, List.mem_cons_self _ _, rfl⟩
        rw [if_pos hex]
        cases r.Winner <;>
          simp [TW.mk.injEq, Prod.fst_add, Prod.snd_add]
    · rw [if_neg hk]
      have hpred : ¬ stripBraces r.Talents = k := fun h => hk h.symm
      have hcnt : cntTW (r :: rest) k = cntTW rest k := by
        simp [cntTW, List.filter_cons, hpred]
      have hex : (∃ r' ∈ r :: rest, stripBraces r'.Talents = k) ↔
          ∃ r' ∈ rest, stripBraces r'.Talents = k := by
        simp [List.mem_cons, or_and_right, exists_or, hpred]
      rw [hcnt]
      cases hacc : assocLookup acc k with
      | some t => rfl
      | none => simp only [hex]

lemma updAssoc_keys {α : Type} (d : α) (f : α → α) (k : String) :
    ∀ (l : List (String × α)),
      (updAssoc l k d f).map Prod.fst =
        if k ∈ l.map Prod.fst then l.map Prod.fst
        else l.map Prod.fst ++ [k] := by
  intro l
  induction l with
  | nil => simp [updAssoc]
  | cons hd rest ih =>
    obtain ⟨k0, v⟩ := hd
    by_cases h : k0 = k
    · subst h
      simp [updAssoc]
    · have h2 : ¬ k = k0 := fun hh => h hh.symm
      simp only [updAssoc, if_neg h, List.map_cons, List.mem_cons, ih]
      by_cases hm : k ∈ rest.map Prod.fst
      · simp [hm, h2]
      · simp [hm, h2]

lemma updAssoc_keys_nodup {α : Type} (d : α) (f : α → α) (k : String)
    (l : List (String × α)) (h : (l.map Prod.fst).Nodup) :
    ((updAssoc l k d f).map Prod.fst).Nodup := by
  rw [updAssoc_keys]
  split
  · exact h
  · rename_i hnm
    simp [List.nodup_append, h, hnm]

lemma totalFold_keys_nodup :
    ∀ (rows : List WRow) (acc : List (String × TW)),
      (acc.map Prod.fst).Nodup → ((totalFold rows acc).map Prod.fst).Nodup := by
  intro rows
  induction rows with
  | nil => intro acc h; exact h
  | cons r rest ih =>
    intro acc h
    exact ih _ (updAssoc_keys_nodup _ _ _ acc h)

lemma mem_iff_assocLookup {α : Type} :
    ∀ (l : List (String × α)), (l.map Prod.fst).Nodup →
      ∀ (k : String) (v : α), ((k, v) ∈ l ↔ assocLookup l k = some v) := by
  intro l
  induction l with
  | nil => intro _ k v; simp [assocLookup]
  | cons hd rest ih =>
    intro h k v
    obtain ⟨k0, v0⟩ := hd
    simp only [List.map_cons, List.nodup_cons] at h
    simp only [assocLookup, List.mem_cons]
    by_cases hk : k0 = k
    · subst hk
      rw [if_pos rfl]
      constructor
      · rintro (heq | hmem)
        · rw [Prod.mk.injEq] at heq
          rw [heq.2]
        · exact absurd (List.mem_map.mpr ⟨(k0, v), hmem, rfl⟩) h.1
      · intro hv
        left
        rw [Option.some.injEq] at hv
        rw [hv]
    · rw [if_neg hk, ← ih h.2 k v]
      constructor
      · rintro (heq | hmem)
        · rw [Prod.mk.injEq] at heq
          exact absurd heq.1.symm hk
        · exact hmem
      · exact Or.inr

lemma totalFold_perm {rows1 rows2 : List WRow} (hrows : rows1.Perm rows2) :
    (totalFold rows1 []).Perm (totalFold rows2 []) := by
  have h1 : ((totalFold rows1 []).map Prod.fst).Nodup :=
    totalFold_keys_nodup rows1 [] (by simp)
  have h2 : ((totalFold rows2 []).map Prod.fst).Nodup :=
    totalFold_keys_nodup rows2 [] (by simp)
  refine (List.perm_ext_iff_of_nodup (h1.of_map _) (h2.of_map _)).mpr ?_
  rintro ⟨k, v⟩
  rw [mem_iff_assocLookup _ h1, mem_iff_assocLookup _ h2,
    totalFold_lookup, totalFold_lookup]
  simp only [assocLookup]
  rw [cntTW_perm hrows]
  have hex : (∃ r ∈ rows1, stripBraces r.Talents = k) ↔
      ∃ r ∈ rows2, stripBraces r.Talents = k := by
    constructor <;> rintro ⟨r, hr, hrk⟩
    · exact ⟨r, hrows.mem_iff.mp hr, hrk⟩
    · exact ⟨r, hrows.mem_iff.mpr hr, hrk⟩
  simp only [hex]

lemma sortTot_unique {l₁ l₂ : List build} (p : l₁.Perm l₂)
    (hn : (l₁.map build.Total).Nodup) :
    List.insertionSort (fun a b => b.Total ≤ a.Total) l₁ =
      List.insertionSort (fun a b => b.Total ≤ a.Total) l₂ := by
  haveI instT : IsTotal build (fun a b => b.Total ≤ a.Total) :=
    ⟨fun a b => Nat.le_total _ _⟩
  haveI instTr : IsTrans build (fun a b => b.Total ≤ a.Total) :=
    ⟨fun a b c h1 h2 => le_trans h2 h1⟩
  haveI instAnti : IsAntisymm build (fun a b => b.Total < a.Total) :=
    ⟨fun a b h1 h2 => absurd (lt_trans h1 h2) (lt_irrefl _)⟩
  have hs1 := List.sorted_insertionSort (fun a b : build => b.Total ≤ a.Total) l₁
  have hs2 := List.sorted_insertionSort (fun a b : build => b.Total ≤ a.Total) l₂
  have hns1 : ((List.insertionSort (fun a b : build => b.Total ≤ a.Total)
      l₁).map build.Total).Nodup :=
    hn.perm ((List.perm_insertionSort _ l₁).symm.map _)
  have hns2 : ((List.insertionSort (fun a b : build => b.Total ≤ a.Total)
      l₂).map build.Total).Nodup :=
    (hn.perm (p.map _)).perm ((List.perm_insertionSort _ l₂).symm.map _)
  have hstrict1 : List.Sorted (fun a b : build => b.Total < a.Total)
      (List.insertionSort (fun a b : build => b.Total ≤ a.Total) l₁) :=
    (hs1.and (List.pairwise_map.mp hns1)).imp
      (fun h => lt_of_le_of_ne h.1 (Ne.symm h.2))
  have hstrict2 : List.Sorted (fun a b : build => b.Total < a.Total)
      (List.insertionSort (fun a b : build => b.Total ≤ a.Total) l₂) :=
    (hs2.and (List.pairwise_map.mp hns2)).imp
      (fun h => lt_of_le_of_ne h.1 (Ne.symm h.2))
  exact List.eq_of_perm_of_sorted
    ((List.perm_insertionSort _ l₁).trans
      (p.trans (List.perm_insertionSort _ l₂).symm))
    hstrict1 hstrict2

/-- Configuration for the C6 instance: four talents, no build/hero maps. -/
def c6Init : initData :=
  ⟨[], [("talent", [("a1", "a1"), ("a2", "a2"), ("b1", "b1"), ("b2", "b2")])],
   []⟩

/-- The C6 request arguments. -/
def c6Args : Args := fun k =>
  if k = "build" then "B" else if k = "hero" then "H" else ""

/-- The same grouped result set in two orders (legal for one `GROUP BY`
query run twice without `ORDER BY`). -/
def c6RowsA : List WRow :=
  [⟨20, "\x7ba1,a2\x7d", true⟩, ⟨20, "\x7bb1,b2\x7d", true⟩]

/-- `c6RowsA` reversed. -/
def c6RowsB : List WRow :=
  [⟨20, "\x7bb1,b2\x7d", true⟩, ⟨20, "\x7ba1,a2\x7d", true⟩]

/-- Tally produced from `c6RowsA`. -/
def c6TallyA : Tally :=
  [(1, [("a1", ⟨20, 0⟩), ("b1", ⟨20, 0⟩)]),
   (2, [("a2", ⟨20, 0⟩), ("b2", ⟨20, 0⟩)]),
   (3, []), (4, []), (5, []), (6, []), (7, [])]

/-- Tally produced from `c6RowsB`. -/
def c6TallyB : Tally :=
  [(1, [("b1", ⟨20, 0⟩), ("a1", ⟨20, 0⟩)]),
   (2, [("b2", ⟨20, 0⟩), ("a2", ⟨20, 0⟩)]),
   (3, []), (4, []), (5, []), (6, []), (7, [])]

/-- The `a1,a2` combination's build entry. -/
def c6BuildA : build := ⟨["a1", "a2"], 20, 1⟩

/-- The `b1,b2` combination's build entry. -/
def c6BuildB : build := ⟨["b1", "b2"], 20, 1⟩

/-- Counterexample to C6 as stated: the two runs see the same data set (the
row lists are permutations of each other, as `GROUP BY` without `ORDER BY`
permits), yet the ranked lists come out in different orders — the two tied
combinations swap — so the JSON-encoded responses differ byte for byte. -/
theorem c6_counterexample :
    c6RowsA.Perm c6RowsB
    ∧ getBuildWinrates c6Init 10 (fun _ _ => .ok c6RowsA) c6Args =
        .ok (c6TallyA, [c6BuildA, c6BuildB], [c6BuildA, c6BuildB])
    ∧ getBuildWinrates c6Init 10 (fun _ _ => .ok c6RowsB) c6Args =
        .ok (c6TallyB, [c6BuildB, c6BuildA], [c6BuildB, c6BuildA])
    ∧ encodeBuilds [c6BuildA, c6BuildB] ≠ encodeBuilds [c6BuildB, c6BuildA] :=
  ⟨by decide, rfl, rfl, by decide⟩

/-- Claim C6 amended: over an unchanged data set (any permutation of the
grouped rows), re-running the aggregation yields tallies with identical
content at every (tier, talent) cell — hence identical JSON, since Go's
map encoding sorts keys — and, provided the talent combinations' total game
counts are pairwise distinct, identical popular-builds and winning-builds
lists; with tied totals the ranked lists' order and boundary membership may
differ between runs (as the counterexample shows). -/
theorem c6_amended :
    (∀ (init : initData) (rows1 rows2 : List WRow), rows1.Perm rows2 →
      ∀ (tier : Nat) (name : String),
        tallyLookup (tallyFold init rows1 tally0) tier name =
          tallyLookup (tallyFold init rows2 tally0) tier name)
    ∧ (∀ (init : initData) (pgl : Nat) (rows1 rows2 : List WRow),
        rows1.Perm rows2 →
        ((totalFold rows1 []).map (fun p => p.2.Total)).Nodup →
        rankedOf pgl (buildsOf init pgl (totalFold rows1 [])) =
          rankedOf pgl (buildsOf init pgl (totalFold rows2 []))) := by
  constructor
  · intro init rows1 rows2 hperm tier name
    apply totPair_inj
    rw [tallyFold_eq_applyIncs, tallyFold_eq_applyIncs,
      applyIncs_lookup, applyIncs_lookup]
    congr 1
    split
    · exact incsSum_perm (List.Perm.flatMap_right (rowIncs init) hperm) _ _
    · rfl
  · intro init pgl rows1 rows2 hperm hnodup
    have ht : (totalFold rows1 []).Perm (totalFold rows2 []) :=
      totalFold_perm hperm
    have hb : (buildsOf init pgl (totalFold rows1 [])).Perm
        (buildsOf init pgl (totalFold rows2 [])) := ht.map _
    have hkeys : ((buildsOf init pgl (totalFold rows1 [])).map
        build.Total).Nodup := by
      have hmm : (buildsOf init pgl (totalFold rows1 [])).map build.Total =
          (totalFold rows1 []).map (fun p => p.2.Total) := by
        simp only [buildsOf, List.map_map]
        exact List.map_congr_left fun p _ => rfl
      rw [hmm]
      exact hnodup
    have hsort := sortTot_unique hb hkeys
    simp only [rankedOf]
    rw [hsort, hb.length_eq]

/-- Witness for C6 (amended) on two permuted row lists with tie-free totals
(3 and 7): the tally cell and the ranked lists agree across the two runs. -/
theorem c6_witness :
    tallyLookup (tallyFold scenarioInit
        [⟨3, "\x7bt1\x7d", true⟩, ⟨7, "\x7bt2\x7d", false⟩] tally0) 1 "t1" =
      tallyLookup (tallyFold scenarioInit
        [⟨7, "\x7bt2\x7d", false⟩, ⟨3, "\x7bt1\x7d", true⟩] tally0) 1 "t1"
    ∧ rankedOf 10 (buildsOf scenarioInit 10 (totalFold
        [⟨3, "\x7bt1\x7d", true⟩, ⟨7, "\x7bt2\x7d", false⟩] [])) =
      rankedOf 10 (buildsOf scenarioInit 10 (totalFold
        [⟨7, "\x7bt2\x7d", false⟩, ⟨3, "\x7bt1\x7d", true⟩] [])) :=
  ⟨c6_amended.1 scenarioInit _ _ (by decide) 1 "t1",
   c6_amended.2 scenarioInit 10 _ _ (by decide) (by decide)⟩

end Hots
